import Mathlib

/-!
Shallow embedding of the cloudwatch-logs-cli tool (src/unnamed/part_001,
src/unnamed/part_000, src/lib/errors.js di) in Lean 4.

Interactive prompts (inquirer) are modelled by an operator script: a list of
the values the operator would select, consumed one prompt at a time; a prompt
returns the scripted answer only when it is among the menu's selectable
values.  Network fetches are modelled by passing the fetched data (log
groups, log streams, filtered events) as explicit inputs.  Terminal colour
wrappers (chalk) and Date#toISOString are pure display formatting; colours
are dropped and the ISO renderer is abstracted as a function parameter.
JavaScript strings are modelled as Lean strings with character-indexed
operations (the sources only ever hold ASCII, where UTF-16 indexing and
character indexing agree).
-/

namespace CloudWatchLogsCli

/-! ## JavaScript string primitives used by the source -/

/-- Character-list version of JS String#startsWith. -/
def jsStartsWith (s pat : String) : Bool :=
  pat.data.isPrefixOf s.data

/-- Character-list version of JS String#endsWith. -/
def jsEndsWith (s pat : String) : Bool :=
  pat.data.isSuffixOf s.data

/-- JS String#length (character count; sources are ASCII). -/
def jsLength (s : String) : Nat :=
  s.data.length

/-- JS String#slice(n) for n at least 0: drop the first n characters. -/
def jsDropChars (s : String) (n : Nat) : String :=
  ⟨s.data.drop n⟩

/-- Take the first n characters of a string. -/
def jsTakeChars (s : String) (n : Nat) : String :=
  ⟨s.data.take n⟩

/-- JS String#slice(0, endIdx): a negative end counts from the end of the
string, clamped at 0. -/
def jsSliceTo (s : String) (endIdx : Int) : String :=
  jsTakeChars s (if endIdx < 0 then ((jsLength s : Int) + endIdx).toNat else endIdx.toNat)

/-- Helper for jsIndexOfChar: scan with a running index. -/
def indexOfCharAux (c : Char) : List Char → Nat → Option Nat
  | [], _ => none
  | x :: xs, i => if x = c then some i else indexOfCharAux c xs (i + 1)

/-- JS String#indexOf for a single character (none stands for -1). -/
def jsIndexOfChar (s : String) (c : Char) : Option Nat :=
  indexOfCharAux c s.data 0

/-- Helper for jsLastIndexOf: remember the last index where the character
occurred. -/
def lastIndexOfAux (c : Char) : List Char → Nat → Int → Int
  | [], _, acc => acc
  | x :: xs, i, acc => lastIndexOfAux c xs (i + 1) (if x = c then (i : Int) else acc)

/-- JS String#lastIndexOf for a single character (-1 when absent). -/
def jsLastIndexOf (s : String) (c : Char) : Int :=
  lastIndexOfAux c s.data 0 (-1)

/-- Helper for jsLastIndexOfFrom: last occurrence at an index not above the
cap. -/
def lastIndexOfWithinAux (c : Char) (cap : Int) : List Char → Nat → Int → Int
  | [], _, acc => acc
  | x :: xs, i, acc =>
    lastIndexOfWithinAux c cap xs (i + 1) (if x = c ∧ (i : Int) ≤ cap then (i : Int) else acc)

/-- JS String#lastIndexOf(c, fromIndex): only indices up to fromIndex are
considered; a negative fromIndex is treated as 0. -/
def jsLastIndexOfFrom (s : String) (c : Char) (fromIdx : Int) : Int :=
  lastIndexOfWithinAux c (if fromIdx < 0 then 0 else fromIdx) s.data 0 (-1)

/-- JS String#trim: strip leading and trailing whitespace (the JS whitespace
set is approximated by Char.isWhitespace; the credential checks only compare
the result against the empty string). -/
def jsTrim (s : String) : String :=
  ⟨((s.data.dropWhile Char.isWhitespace).reverse.dropWhile Char.isWhitespace).reverse⟩

/-- Helper for jsSetDedup: keep elements not seen before. -/
def jsSetDedupAux (seen : List String) : List String → List String
  | [] => []
  | x :: xs => if x ∈ seen then jsSetDedupAux seen xs else x :: jsSetDedupAux (x :: seen) xs

/-- JS Array.from(new Set(l)): distinct elements in first-occurrence order. -/
def jsSetDedup (l : List String) : List String :=
  jsSetDedupAux [] l

/-! ## Credential Manager (validateCredentials, part_001 lines 58-68) -/

/-- JavaScript field values that can sit in a parsed credentials object
(NaN is not modelled; the credential fields of interest are strings or
absent). -/
inductive JsVal where
  | vStr (s : String)
  | vNum (n : Int)
  | vBool (b : Bool)
  | vUndefined
  | vNull
deriving DecidableEq

/-- JS truthiness of a field value. -/
def JsVal.truthy : JsVal → Bool
  | .vStr s => if s = "" then false else true
  | .vNum n => if n = 0 then false else true
  | .vBool b => b
  | .vUndefined => false
  | .vNull => false

/-- JS typeof v === "string". -/
def JsVal.isString : JsVal → Bool
  | .vStr _ => true
  | _ => false

/-- Trim of a field value; only ever evaluated after the isString guards in
validateCredentials, so the non-string branch is unreachable there. -/
def JsVal.trimStr : JsVal → String
  | .vStr s => jsTrim s
  | _ => ""

/-- A parsed credentials object: the two fields validateCredentials reads.
A missing property reads as vUndefined. -/
structure CredObj where
  accessKeyId : JsVal
  secretAccessKey : JsVal
deriving DecidableEq

/-- validateCredentials (part_001 lines 58-68): the object itself must be
truthy (none models null/undefined), both fields truthy, both strings, and
both non-blank after trimming. -/
def validateCredentials (credentials : Option CredObj) : Bool :=
  match credentials with
  | none => false
  | some c =>
    c.accessKeyId.truthy &&
    c.secretAccessKey.truthy &&
    c.accessKeyId.isString &&
    c.secretAccessKey.isString &&
    (if c.accessKeyId.trimStr = "" then false else true) &&
    (if c.secretAccessKey.trimStr = "" then false else true)

/-! ## Data model of the navigator and tail loop -/

/-- A CloudWatch log group as used by the source: name and creation time
(milliseconds since epoch). -/
structure LogGroup where
  logGroupName : String
  creationTime : Int
deriving DecidableEq

/-- A CloudWatch log stream entry: name and optional last-event timestamp. -/
structure LogStream where
  logStreamName : String
  lastEventTimestamp : Option Int
deriving DecidableEq

/-- The remote environment visible to getLogStream: the log groups and the
log streams its two paginated fetches return. -/
structure Env where
  groups : List LogGroup
  streams : List LogStream
deriving DecidableEq

/-- Local calendar components as produced by JS Date#getFullYear,
Date#getMonth, Date#getDate; the timezone-dependent conversion from epoch
milliseconds is abstracted as a function parameter below. -/
structure DateParts where
  year : Int
  month : Int
  day : Int
deriving DecidableEq

/-- filterLogGroupsByDate (part_001 lines 158-180).  toDate abstracts the
local-time calendar conversion of new Date(ms); now abstracts new Date()
at call time. -/
def filterLogGroupsByDate (toDate : Int → DateParts) (now : DateParts)
    (logGroups : List LogGroup) (filter : String) : List LogGroup :=
  logGroups.filter (fun group =>
    let creationDate := toDate group.creationTime
    if filter = "all" then true
    else if filter = "year" then creationDate.year == now.year
    else if filter = "month" then
      creationDate.year == now.year && creationDate.month == now.month
    else if filter = "day" then
      creationDate.year == now.year && creationDate.month == now.month &&
        creationDate.day == now.day
    else false)

/-- Stable descending insertion by creationTime, modelling the stable JS
sort with comparator (a, b) => b.creationTime - a.creationTime
(part_001 line 289): the inserted element precedes every later element it
ties with, so the original relative order of ties is kept. -/
def insertGroupDesc (g : LogGroup) : List LogGroup → List LogGroup
  | [] => [g]
  | h :: t => if h.creationTime ≤ g.creationTime then g :: h :: t else h :: insertGroupDesc g t

/-- Sort log groups by creation time, newest first. -/
def sortGroupsDesc : List LogGroup → List LogGroup
  | [] => []
  | g :: gs => insertGroupDesc g (sortGroupsDesc gs)

/-- lastEventTimestamp || 0 (part_001 lines 341-342). -/
def lastEventOf (st : LogStream) : Int :=
  match st.lastEventTimestamp with
  | some t => t
  | none => 0

/-- Stable descending insertion by (lastEventTimestamp || 0), modelling the
stable JS sort at part_001 lines 340-344: the inserted element precedes
every later element it ties with, so the original relative order of ties
is kept. -/
def insertStreamDesc (st : LogStream) : List LogStream → List LogStream
  | [] => [st]
  | h :: t => if lastEventOf h ≤ lastEventOf st then st :: h :: t else h :: insertStreamDesc st t

/-- Sort log streams by last event time, newest first. -/
def sortStreamsDesc : List LogStream → List LogStream
  | [] => []
  | st :: rest => insertStreamDesc st (sortStreamsDesc rest)

/-! ## Namespace Navigator (getLogGroup, part_001 lines 226-317) -/

/-- One inquirer list prompt: the operator script supplies the value of the
selected choice; the selection must be one of the menu's values.  Returns
the answer and the remaining script, or none when the model has no valid
scripted input. -/
def promptList (values : List String) (script : List String) : Option (String × List String) :=
  match script with
  | [] => none
  | a :: rest => if a ∈ values then some (a, rest) else none

/-- Result of a navigation function: the returned value or thrown error
message (the AWSError message), the unconsumed operator script, and how
many menu prompts were shown. -/
structure NavOut where
  result : Except String String
  rest : List String
  prompts : Nat

/-- Next-segment computation of getLogGroup (part_001 lines 240-247) for a
single entry name: the remainder after the base is collapsed to its first
path segment, keeping the slash of a sub-level. -/
def nextSegment (base name : String) : String :=
  let remainingPath := jsDropChars name (jsLength base)
  match jsIndexOfChar remainingPath '/' with
  | some i => jsTakeChars remainingPath (i + 1)
  | none => remainingPath

/-- The distinct next segments getLogGroup derives from the entry names
(part_001 lines 238-247): filter by the /mainNamespace-plus-current-path
base, collapse each remainder to one segment, deduplicate. -/
def nextSegments (names : List String) (main pfx : String) : List String :=
  let base := "/" ++ main ++ pfx
  jsSetDedup ((names.filter (fun n => jsStartsWith n base)).map (nextSegment base))

/-- Path truncation of the Back branch (part_001 line 267):
p.slice(0, p.lastIndexOf(slash, p.length - 2) + 1). -/
def backTruncate (pfx : String) : String :=
  jsSliceTo pfx (jsLastIndexOfFrom pfx '/' ((jsLength pfx : Int) - 2) + 1)

/-- getLogGroup (part_001 lines 226-317).  groups is what the paginated
fetch returns; fuel bounds the JS recursion (the modelled scripts never
exhaust it); toDate and today feed the date filter.  Menu prompts consume
the operator script.  The thrown NotFound error is re-wrapped by the
function's own catch block, which treats any non-token error this way. -/
def getLogGroup : Nat → List LogGroup → (Int → DateParts) → DateParts →
    String → String → List String → NavOut
  | 0, _, _, _, _, _, script =>
    ⟨.error "model: recursion depth exhausted", script, 0⟩
  | fuel + 1, groups, toDate, today, main, pfx, script =>
    if groups.length = 0 then
      ⟨.error "An error occurred while fetching log groups: No log groups found.", script, 0⟩
    else
      let base := "/" ++ main ++ pfx
      let filtered := groups.filter (fun g => jsStartsWith g.logGroupName base)
      let subGroups := jsSetDedup (filtered.map (fun g => nextSegment base g.logGroupName))
      let choices := subGroups.map (fun g => (g, pfx ++ g))
      if 1 < choices.length ∨
          (choices.length = 1 ∧ jsEndsWith (choices.headD ("", "")).1 "/" = true) then
        match promptList (choices.map (fun c => c.2) ++ ["back"]) script with
        | none => ⟨.error "model: operator input unavailable", script, 1⟩
        | some (selectedGroup, rest) =>
          if selectedGroup = "back" then
            let out := getLogGroup fuel groups toDate today main (backTruncate pfx) rest
            ⟨out.result, out.rest, out.prompts + 1⟩
          else if jsEndsWith selectedGroup "/" then
            let out := getLogGroup fuel groups toDate today main selectedGroup rest
            ⟨out.result, out.rest, out.prompts + 1⟩
          else
            ⟨.ok ("/" ++ main ++ selectedGroup), rest, 1⟩
      else
        match promptList ["all", "year", "month", "day"] script with
        | none => ⟨.error "model: operator input unavailable", script, 1⟩
        | some (dateFilter, rest) =>
          let byDate := filterLogGroupsByDate toDate today filtered dateFilter
          let sorted := sortGroupsDesc byDate
          match promptList (sorted.map (fun g => g.logGroupName)) rest with
          | none => ⟨.error "model: operator input unavailable", rest, 2⟩
          | some (logGroup, rest2) => ⟨.ok logGroup, rest2, 2⟩

/-! ## Stream Selector (getLogStream, part_001 lines 328-380) -/

/-- The selectable values of the stream menu: the sorted stream names plus
the Back option (part_001 lines 346-354). -/
def streamMenuValues (streams : List LogStream) : List String :=
  (sortStreamsDesc streams).map (fun st => st.logStreamName) ++ ["back"]

/-- getLogStream (part_001 lines 328-380).  On Back it returns the result
of getLogGroup invoked with the truncated group path passed as the main
namespace argument and the default empty path (part_001 line 366). -/
def getLogStream (fuel : Nat) (env : Env) (toDate : Int → DateParts) (today : DateParts)
    (logGroup : String) (script : List String) : NavOut :=
  if env.streams.length = 0 then
    ⟨.error "An error occurred while fetching log streams: No log streams found.", script, 0⟩
  else
    match promptList (streamMenuValues env.streams) script with
    | none => ⟨.error "model: operator input unavailable", script, 1⟩
    | some (ans, rest) =>
      if ans = "back" then
        let out := getLogGroup fuel env.groups toDate today
          (jsSliceTo logGroup (jsLastIndexOf logGroup '/' + 1)) "" rest
        ⟨out.result, out.rest, out.prompts + 1⟩
      else ⟨.ok ans, rest, 1⟩

/-! ## Tail Loop (streamLogs / fetchLogs, part_001 lines 382-451) -/

/-- MAX_LOG_LINES (part_001 line 20). -/
def MAX_LOG_LINES : Nat := 1000

/-- MAX_FETCH_LINES (part_001 line 21), the per-fetch limit sent in the
request parameters. -/
def MAX_FETCH_LINES : Nat := 200

/-- A filtered log event: timestamp in epoch milliseconds and message. -/
structure LogEvent where
  timestamp : Int
  message : String
deriving DecidableEq

/-- Tail Loop state (part_001 lines 385-387): scrollback buffer, watermark
startTime, and the last-fetch flag. -/
structure TailState where
  logBuffer : List String
  startTime : Int
  lastFetchHadEvents : Bool
deriving DecidableEq

/-- Initial tail state (part_001 lines 385-387): empty buffer, watermark
ten minutes before now, flag false. -/
def tailInit (now : Int) : TailState :=
  { logBuffer := [], startTime := now - 10 * 60 * 1000, lastFetchHadEvents := false }

/-- The no-events notice pushed at part_001 line 402 (chalk.yellow colour
wrapper dropped). -/
def noticeLine : String := "No log events found."

/-- Rendered event line (part_001 line 407): timestamp plus message; iso
abstracts new Date(ts).toISOString(), chalk.green is dropped. -/
def renderEvent (iso : Int → String) (e : LogEvent) : String :=
  "[" ++ iso e.timestamp ++ "] " ++ e.message

/-- Buffer trim (part_001 lines 413-416): when over MAX_LOG_LINES, keep
only the newest MAX_LOG_LINES lines. -/
def trimBuffer (buf : List String) : List String :=
  if MAX_LOG_LINES < buf.length then buf.drop (buf.length - MAX_LOG_LINES) else buf

/-- One successful fetch of the Tail Loop (part_001 lines 398-416) applied
to the events the FilterLogEvents call returned.  Empty result: push the
notice exactly when the last fetch had no events (the condition as written
in the source), clear the flag, watermark unchanged.  Non-empty result:
append one rendered line per event in returned order, set the watermark to
the final returned event's timestamp plus one, set the flag.  Both branches
then trim the buffer. -/
def fetchStep (iso : Int → String) (s : TailState) (evs : List LogEvent) : TailState :=
  match evs with
  | [] =>
    let buf := if s.lastFetchHadEvents then s.logBuffer else s.logBuffer ++ [noticeLine]
    { logBuffer := trimBuffer buf, startTime := s.startTime, lastFetchHadEvents := false }
  | e :: rest =>
    let buf := s.logBuffer ++ (e :: rest).map (renderEvent iso)
    { logBuffer := trimBuffer buf,
      startTime := ((e :: rest).getLast (List.cons_ne_nil e rest)).timestamp + 1,
      lastFetchHadEvents := true }

/-- The lines a fetch appends to the scrollback buffer before trimming:
the no-events notice on an empty result whose preceding fetch was empty or
absent, nothing on an empty result after a non-empty fetch, and one
rendered line per event in returned order otherwise (the two branches of
part_001 lines 400-411 as they feed the buffer). -/
def fetchAppended (iso : Int → String) (s : TailState) : List LogEvent → List String
  | [] => if s.lastFetchHadEvents then [] else [noticeLine]
  | e :: rest => (e :: rest).map (renderEvent iso)

/-- Outcome of one FilterLogEvents call: the returned events, an
expired/invalid-token error, or any other error. -/
inductive FetchResult where
  | events (evs : List LogEvent)
  | tokenError
  | otherError (msg : String)
deriving DecidableEq

/-- One attempt of fetchLogs (part_001 lines 389-433).  A token error
refreshes the credential fields in place and retries the fetch with the
tail state untouched, so the retry resends the same watermark: the attempt
leaves the state unchanged and the retry is the next attempt of the trace.
Any other error is wrapped and propagates as fatal. -/
def fetchAttempt (iso : Int → String) (s : TailState) : FetchResult → Except String TailState
  | .events evs => .ok (fetchStep iso s evs)
  | .tokenError => .ok s
  | .otherError msg => .error ("An error occurred while fetching log events: " ++ msg)

/-- Run a sequence of fetch attempts, stopping at the first fatal error. -/
def runAttempts (iso : Int → String) : TailState → List FetchResult → Except String TailState
  | s, [] => .ok s
  | s, r :: rs =>
    match fetchAttempt iso s r with
    | .ok s2 => runAttempts iso s2 rs
    | .error e => .error e

/-- The events of a result respect the watermark they were fetched with:
FilterLogEvents is queried with startTime equal to the watermark, so every
returned event has at least that timestamp. -/
def eventsRespect (s : TailState) : FetchResult → Prop
  | .events evs => ∀ e ∈ evs, s.startTime ≤ e.timestamp
  | _ => True

/-- A trace of fetch results respects the watermark discipline at every
successful step. -/
def respects (iso : Int → String) : TailState → List FetchResult → Prop
  | _, [] => True
  | s, r :: rs =>
    eventsRespect s r ∧ ∀ s2, fetchAttempt iso s r = .ok s2 → respects iso s2 rs

/-- Session flags of streamLogs (part_001 lines 435-448): whether the
2-second polling timer is live, whether stdin is in raw mode, whether stdin
is paused. -/
structure TailSession where
  timerActive : Bool
  rawMode : Bool
  stdinPaused : Bool
deriving DecidableEq

/-- Session right after streamLogs starts: timer set, raw mode on, stdin
resumed (part_001 lines 435-439). -/
def tailSessionStart : TailSession :=
  { timerActive := true, rawMode := true, stdinPaused := false }

/-- The stdin data handler of streamLogs (part_001 lines 440-448): the
single character q clears the polling interval, leaves raw mode, and pauses
stdin; every other key changes nothing. -/
def onKeypress (key : String) (sess : TailSession) : TailSession :=
  if key = "q" then { timerActive := false, rawMode := false, stdinPaused := true }
  else sess

/-! ## Concrete instances used by counterexamples and witnesses -/

/-- Degenerate ISO renderer for concrete evaluations. -/
def isoD : Int → String := fun _ => ""

/-- Degenerate calendar conversion for concrete evaluations. -/
def toDateD : Int → DateParts := fun _ => { year := 2024, month := 0, day := 1 }

/-- Concrete current day for concrete evaluations. -/
def todayD : DateParts := { year := 2024, month := 0, day := 1 }

/-- Concrete remote environment for the Stream Selector Back branch: one
log group whose name begins with a doubled slash (so it survives the
doubled-slash filter base the Back branch produces) and one stream. -/
def env4 : Env :=
  { groups := [{ logGroupName := "//a/b/g", creationTime := 0 }],
    streams := [{ logStreamName := "s1", lastEventTimestamp := some 5 }] }

/-- Concrete fetch trace: a fetch with one event, a token-error retry, an
empty fetch. -/
def traceC8 : List FetchResult :=
  [.events [{ timestamp := 700000, message := "m" }], .tokenError, .events []]

/-- Concrete event list with timestamps 100, 105, 103 in returned order. -/
def evsC1 : List LogEvent :=
  [{ timestamp := 100, message := "x" }, { timestamp := 105, message := "y" },
   { timestamp := 103, message := "z" }]

/-! ## Helper lemmas -/

/-- Trimming the empty string leaves the empty string. -/
theorem jsTrim_empty : jsTrim "" = "" := rfl

/-- The trimmed buffer never exceeds the line cap. -/
theorem trimBuffer_length_le (buf : List String) :
    (trimBuffer buf).length ≤ MAX_LOG_LINES := by
  unfold trimBuffer
  split
  · rw [List.length_drop]
    omega
  · omega

/-- The trimmed buffer is a suffix of the original buffer: only the oldest
lines are discarded and the retained order is untouched. -/
theorem trimBuffer_suffix (buf : List String) : trimBuffer buf <:+ buf := by
  unfold trimBuffer
  split
  · exact List.drop_suffix _ _
  · exact List.suffix_rfl

/-- The trim is exactly a front drop of the overflow: it removes precisely
the oldest (length - MAX_LOG_LINES) lines (none when within the cap,
truncated subtraction). -/
theorem trimBuffer_eq_drop (buf : List String) :
    trimBuffer buf = buf.drop (buf.length - MAX_LOG_LINES) := by
  unfold trimBuffer
  split
  · rfl
  · have h0 : buf.length - MAX_LOG_LINES = 0 := by omega
    rw [h0, List.drop_zero]

/-- One successful fetch attempt never lowers the watermark when the
returned events respect the watermark they were fetched with. -/
theorem fetchAttempt_startTime_le (iso : Int → String) (s s2 : TailState)
    (r : FetchResult) (hr : eventsRespect s r) (h : fetchAttempt iso s r = .ok s2) :
    s.startTime ≤ s2.startTime := by
  cases r with
  | events evs =>
    simp only [fetchAttempt, Except.ok.injEq] at h
    subst h
    cases evs with
    | nil => exact le_refl _
    | cons e rest =>
      have hmem : (e :: rest).getLast (List.cons_ne_nil e rest) ∈ e :: rest :=
        List.getLast_mem _
      have hts := hr _ hmem
      simp only [fetchStep]
      omega
  | tokenError =>
    simp only [fetchAttempt, Except.ok.injEq] at h
    subst h
    exact le_refl _
  | otherError msg =>
    simp [fetchAttempt] at h

/-- Across a respectful trace of fetch attempts the watermark never
rewinds. -/
theorem runAttempts_startTime_mono (iso : Int → String) (rs : List FetchResult) :
    ∀ s sF, respects iso s rs → runAttempts iso s rs = .ok sF →
      s.startTime ≤ sF.startTime := by
  induction rs with
  | nil =>
    intro s sF _ h
    simp only [runAttempts, Except.ok.injEq] at h
    subst h
    exact le_refl _
  | cons r rs ih =>
    intro s sF hresp hrun
    obtain ⟨hr, hnext⟩ := hresp
    cases hfa : fetchAttempt iso s r with
    | ok s1 =>
      have h1 := fetchAttempt_startTime_le iso s s1 r hr hfa
      simp only [runAttempts, hfa] at hrun
      exact le_trans h1 (ih s1 sF (hnext s1 hfa) hrun)
    | error e =>
      simp [runAttempts, hfa] at hrun

/-! ## Claims -/

/-- Claim C3 (counterexample): with mainNamespace a and empty current path,
the next-segment computation over the entries /a/b/c, /a/b/d and /a/e does
not yield the set containing b-slash and e: the base is the two-character
string /a, every remaining suffix starts with a slash, and the single
distinct segment is the lone slash. -/
theorem C3_segments_counterexample :
    nextSegments ["/a/b/c", "/a/b/d", "/a/e"] "a" "" = ["/"] ∧
    "b/" ∉ nextSegments ["/a/b/c", "/a/b/d", "/a/e"] "a" "" := by
  refine ⟨rfl, ?_⟩
  decide

/-- Claim C3 (amended): the next-segment computation applied to the entry
names /a/b/c, /a/b/d and /a/e with mainNamespace a and current path the
single slash yields exactly the distinct segments b-slash and e; with the
empty current path it yields only the slash segment. -/
theorem C3_segments_amended :
    nextSegments ["/a/b/c", "/a/b/d", "/a/e"] "a" "/" = ["b/", "e"] ∧
    nextSegments ["/a/b/c", "/a/b/d", "/a/e"] "a" "" = ["/"] :=
  ⟨rfl, rfl⟩

/-- Claim C5: whenever the fetched log-group list is empty, getLogGroup
fails before showing any menu: zero prompts, the operator script untouched,
and the error surfaced is the NotFound message (wrapped by the function's
own catch block, which re-wraps its thrown AWSError). -/
theorem C5_empty_groups_no_menu (fuel : Nat) (toDate : Int → DateParts)
    (today : DateParts) (main pfx : String) (script : List String) :
    getLogGroup (fuel + 1) [] toDate today main pfx script =
      ⟨.error "An error occurred while fetching log groups: No log groups found.",
        script, 0⟩ := rfl

/-- Claim C6: validateCredentials accepts exactly the credential objects
whose accessKeyId and secretAccessKey are both string values that are
non-blank after trimming. -/
theorem C6_validate_credentials (cred : Option CredObj) :
    validateCredentials cred = true ↔
      ∃ a k, cred = some { accessKeyId := .vStr a, secretAccessKey := .vStr k } ∧
        jsTrim a ≠ "" ∧ jsTrim k ≠ "" := by
  cases cred with
  | none => simp [validateCredentials]
  | some c =>
    obtain ⟨x, y⟩ := c
    cases x <;> cases y <;>
      simp [validateCredentials, JsVal.truthy, JsVal.isString, JsVal.trimStr]
    case vStr.vStr a k =>
      constructor
      · rintro ⟨⟨-, ha⟩, hk⟩
        exact ⟨a, k, ⟨rfl, rfl⟩, ha, hk⟩
      · rintro ⟨a1, k1, ⟨rfl, rfl⟩, ha, hk⟩
        refine ⟨⟨⟨?_, ?_⟩, ha⟩, hk⟩
        · rintro rfl
          exact ha jsTrim_empty
        · rintro rfl
          exact hk jsTrim_empty

/-- Claim C9: the date filter is the identity for all, and for year, month
and day keeps exactly the entries whose local calendar creation date agrees
with the current date on the year, the year and month, and the year, month
and day respectively. -/
theorem C9_date_filter (toDate : Int → DateParts) (now : DateParts)
    (gs : List LogGroup) :
    filterLogGroupsByDate toDate now gs "all" = gs
  ∧ filterLogGroupsByDate toDate now gs "year" =
      gs.filter (fun g => (toDate g.creationTime).year == now.year)
  ∧ filterLogGroupsByDate toDate now gs "month" =
      gs.filter (fun g => (toDate g.creationTime).year == now.year &&
        (toDate g.creationTime).month == now.month)
  ∧ filterLogGroupsByDate toDate now gs "day" =
      gs.filter (fun g => (toDate g.creationTime).year == now.year &&
        (toDate g.creationTime).month == now.month &&
        (toDate g.creationTime).day == now.day) :=
  ⟨List.filter_eq_self.mpr (fun _ _ => rfl), rfl, rfl, rfl⟩

/-- Claim C10: the stdin handler of the Tail Loop stops the polling timer,
leaves raw mode and pauses stdin exactly when the received input is the
single character q; any other input leaves the session untouched. -/
theorem C10_quit_key (key : String) (sess : TailSession) :
    (key = "q" →
      onKeypress key sess =
        { timerActive := false, rawMode := false, stdinPaused := true })
  ∧ (key ≠ "q" → onKeypress key sess = sess) := by
  constructor
  · intro h
    simp [onKeypress, h]
  · intro h
    simp [onKeypress, h]

/-- Witness for claim C10: a non-quit key leaves the fresh session
unchanged, and the quit key tears the session down. -/
theorem C10_quit_key_witness :
    onKeypress "x" tailSessionStart = tailSessionStart ∧
    onKeypress "q" tailSessionStart =
      { timerActive := false, rawMode := false, stdinPaused := true } :=
  ⟨(C10_quit_key "x" tailSessionStart).2 (by decide),
   (C10_quit_key "q" tailSessionStart).1 rfl⟩

/-- Claim C1 (counterexample): a fetch returning events with timestamps
100, 105, 103 in that order advances the watermark to 104, the final
returned timestamp plus one, not to 106, the maximum plus one. -/
theorem C1_watermark_counterexample :
    (fetchStep isoD (tailInit 600000) evsC1).startTime = 104 ∧
    (fetchStep isoD (tailInit 600000) evsC1).startTime ≠ 106 :=
  ⟨rfl, by decide⟩

/-- Claim C1 (amended): for every non-empty fetch the watermark is advanced
to the timestamp of the last event in returned order plus one, which equals
the maximum plus one only when a maximal event comes last. -/
theorem C1_watermark_advance (iso : Int → String) (s : TailState)
    (evs : List LogEvent) (h : evs ≠ []) :
    (fetchStep iso s evs).startTime = (evs.getLast h).timestamp + 1 := by
  cases evs with
  | nil => exact absurd rfl h
  | cons e rest => rfl

/-- Witness for claim C1 (amended): on the concrete event list the
watermark becomes the last timestamp plus one. -/
theorem C1_watermark_advance_witness :
    (fetchStep isoD (tailInit 600000) evsC1).startTime =
      (evsC1.getLast (by decide)).timestamp + 1 :=
  C1_watermark_advance isoD (tailInit 600000) evsC1 (by decide)

/-- Claim C2 (code divergence): starting from the initial tail state, two
consecutive empty fetches append the no-events notice twice, because the
source pushes the notice when the previous fetch was empty or absent; and
an empty fetch right after a non-empty one appends no notice at all.  The
claim requires the opposite: a notice only right after a non-empty fetch,
hence exactly one notice for a pair of consecutive empty fetches. -/
theorem C2_notice_spam :
    ((fetchStep isoD (fetchStep isoD (tailInit 600000) []) []).logBuffer.count
        noticeLine = 2)
  ∧ ((fetchStep isoD (fetchStep isoD (tailInit 600000)
        [{ timestamp := 700000, message := "m" }]) []).logBuffer.count
        noticeLine = 0) :=
  ⟨rfl, rfl⟩

/-- Claim C7: after any Tail Loop fetch the scrollback buffer has at most
MAX_LOG_LINES lines, and the new buffer is exactly the old buffer with the
fetch's appended lines, minus precisely the oldest overflow lines dropped
from the front: FIFO eviction with the retained order preserved. -/
theorem C7_buffer_cap (iso : Int → String) (s : TailState) (evs : List LogEvent) :
    (fetchStep iso s evs).logBuffer.length ≤ MAX_LOG_LINES ∧
    (fetchStep iso s evs).logBuffer =
      (s.logBuffer ++ fetchAppended iso s evs).drop
        ((s.logBuffer ++ fetchAppended iso s evs).length - MAX_LOG_LINES) := by
  cases evs with
  | nil =>
    refine ⟨trimBuffer_length_le _, ?_⟩
    cases hB : s.lastFetchHadEvents with
    | true =>
      simp only [fetchStep, fetchAppended, hB, if_true, List.append_nil]
      exact trimBuffer_eq_drop _
    | false =>
      simp only [fetchStep, fetchAppended, hB, if_false]
      exact trimBuffer_eq_drop _
  | cons e rest =>
    exact ⟨trimBuffer_length_le _, trimBuffer_eq_drop _⟩

/-- Claim C8: across a trace of fetch attempts whose returned events
respect the watermark they were fetched with, the watermark never
decreases; an empty fetch leaves it unchanged, and a token-error attempt
leaves the whole tail state unchanged, so the immediate retry resends the
same watermark. -/
theorem C8_watermark_monotone (iso : Int → String) :
    (∀ s rs sF, respects iso s rs → runAttempts iso s rs = .ok sF →
        s.startTime ≤ sF.startTime)
  ∧ (∀ s : TailState, (fetchStep iso s []).startTime = s.startTime)
  ∧ (∀ s : TailState, fetchAttempt iso s .tokenError = .ok s) :=
  ⟨fun s rs sF h1 h2 => runAttempts_startTime_mono iso rs s sF h1 h2,
   fun _ => rfl, fun _ => rfl⟩

/-- Witness for claim C8: on the concrete trace of a one-event fetch, a
token-error retry and an empty fetch, the watermark moves from 0 up to
700001. -/
theorem C8_watermark_monotone_witness :
    (tailInit 600000).startTime ≤
      ({ logBuffer := ["[] m"], startTime := 700001,
         lastFetchHadEvents := false } : TailState).startTime :=
  (C8_watermark_monotone isoD).1 (tailInit 600000) traceC8
    { logBuffer := ["[] m"], startTime := 700001, lastFetchHadEvents := false }
    (by
      refine ⟨?_, ?_⟩
      · intro e he
        rw [List.mem_singleton] at he
        subst he
        decide
      · intro s2 h2
        simp only [fetchAttempt, Except.ok.injEq] at h2
        subst h2
        refine ⟨trivial, ?_⟩
        intro s3 h3
        simp only [fetchAttempt, Except.ok.injEq] at h3
        subst h3
        refine ⟨?_, ?_⟩
        · intro e he
          exact absurd he (List.not_mem_nil e)
        · intro s4 h4
          trivial)
    rfl

/-- Claim C4 (counterexample): in a concrete environment, choosing Back in
the Stream Selector makes getLogStream return the result of the Namespace
Navigator directly, here a log-group name that is not the name of any
stream, refuting that selectStream always returns a stream name. -/
theorem C4_stream_name_counterexample :
    (getLogStream 1 env4 toDateD todayD "/a/b/c"
        ["back", "all", "//a/b/g"]).result = Except.ok "//a/b/g"
  ∧ "//a/b/g" ∈ env4.groups.map (fun g => g.logGroupName)
  ∧ "//a/b/g" ∉ env4.streams.map (fun st => st.logStreamName) :=
  ⟨rfl, by decide, by decide⟩

/-- Claim C4 (amended): choosing Back in the Stream Selector re-invokes the
Namespace Navigator with the stream's group path truncated at its last
slash passed as the main-namespace argument and an empty current path, and
getLogStream returns that navigator call's outcome directly, without
restarting stream selection. -/
theorem C4_back_invokes_navigator (fuel : Nat) (env : Env)
    (toDate : Int → DateParts) (today : DateParts) (logGroup : String)
    (script rest : List String) (hne : env.streams ≠ [])
    (hp : promptList (streamMenuValues env.streams) script = some ("back", rest)) :
    getLogStream fuel env toDate today logGroup script =
      { result := (getLogGroup fuel env.groups toDate today
            (jsSliceTo logGroup (jsLastIndexOf logGroup '/' + 1)) "" rest).result,
        rest := (getLogGroup fuel env.groups toDate today
            (jsSliceTo logGroup (jsLastIndexOf logGroup '/' + 1)) "" rest).rest,
        prompts := (getLogGroup fuel env.groups toDate today
            (jsSliceTo logGroup (jsLastIndexOf logGroup '/' + 1)) "" rest).prompts + 1 } := by
  have hlen : ¬ env.streams.length = 0 := by
    simpa [List.length_eq_zero] using hne
  unfold getLogStream
  rw [if_neg hlen, hp]
  rfl

/-- Witness for claim C4 (amended): the concrete Back selection returns
exactly the navigator's outcome with the prompt count increased by one. -/
theorem C4_back_invokes_navigator_witness :
    getLogStream 1 env4 toDateD todayD "/a/b/c" ["back", "all", "//a/b/g"] =
      { result := (getLogGroup 1 env4.groups toDateD todayD
            (jsSliceTo "/a/b/c" (jsLastIndexOf "/a/b/c" '/' + 1)) ""
            ["all", "//a/b/g"]).result,
        rest := (getLogGroup 1 env4.groups toDateD todayD
            (jsSliceTo "/a/b/c" (jsLastIndexOf "/a/b/c" '/' + 1)) ""
            ["all", "//a/b/g"]).rest,
        prompts := (getLogGroup 1 env4.groups toDateD todayD
            (jsSliceTo "/a/b/c" (jsLastIndexOf "/a/b/c" '/' + 1)) ""
            ["all", "//a/b/g"]).prompts + 1 } :=
  C4_back_invokes_navigator 1 env4 toDateD todayD "/a/b/c"
    ["back", "all", "//a/b/g"] ["all", "//a/b/g"] (by decide) rfl

end CloudWatchLogsCli
